import Mathlib

/-!
# Verification of the sdl_game input-abstraction layer

Shallow embedding of the input code in `sdl_steam_input.cpp` (which contains
two coexisting designs: a binding-table-driven `InputManager`, called "D1"
below, and a capability-delegation design built from `InputDevice` subclasses
`KeyboardInput` / `MouseInput` / `GamepadInput`, called "D2" below) together
with proofs about edge detection, deadzone shaping, dispatch, touch-point
lifecycle, hotplug handling and initialization safety.

Modelling conventions:
* C++ `float` arithmetic is modelled exactly over `ℚ` (for executable state
  machines) and over `ℝ` (for the analytic facts about deadzone shaping);
  `Sint16` axis readings are modelled as `Int`.
* SDL is the external platform source.  Raw per-frame device state (key
  array, button reads, axis reads, joystick list) is passed to the embedded
  operations as explicit "source"/"environment" arguments.
* `SDL_GetKeyboardState` returns a pointer into SDL's single live key-state
  array, which is rewritten when events are pumped (before the per-frame
  device updates in both designs).  A read through that pointer therefore
  always yields the *current* frame's key state; the pointer itself is only
  `nullptr` before it has first been fetched.  We model a read through the
  pointer as reading the current frame source, and the pointer itself as
  `Option Unit` (`none` = `nullptr`) where only nullness matters.
* `std::function` callbacks cannot be inspected, so callbacks are modelled
  as opaque numeric tokens and dispatch is modelled as returning the list of
  invocations (identifier, callback token, payload) it performs, in loop
  order.
* SDL keycode↔scancode translation (`SDL_GetScancodeFromKey`) is modelled as
  the identity on `Nat`; the claims under study do not depend on it.
-/

namespace SDLGame

/-- `InputManager::GamepadButton` (sdl_steam_input.cpp lines 30-39). -/
inductive GamepadButton where
  | A | B | X | Y
  | BACK | GUIDE | START
  | LEFTSTICK | RIGHTSTICK
  | LEFTSHOULDER | RIGHTSHOULDER
  | DPAD_UP | DPAD_DOWN | DPAD_LEFT | DPAD_RIGHT
  | MISC1 | PADDLE1 | PADDLE2 | PADDLE3 | PADDLE4
  | TOUCHPAD
  | NONE
deriving DecidableEq

/-- `InputManager::GamepadAxis` (sdl_steam_input.cpp lines 41-47). -/
inductive GamepadAxis where
  | LEFTX | LEFTY
  | RIGHTX | RIGHTY
  | TRIGGERLEFT | TRIGGERRIGHT
  | NONE
deriving DecidableEq

/-- `SDL_CONTROLLER_BUTTON_MAX` (= 21 in SDL2). -/
def sdlControllerButtonMax : Nat := 21

/-- `SDL_CONTROLLER_AXIS_MAX` (= 6 in SDL2). -/
def sdlControllerAxisMax : Nat := 6

/-- `InputManager::sdlButtonToGamepadButton` (lines 555-576); SDL raw button
indices 0..20 in SDL2's enumeration order.  Paddles and touchpad fall through
to `NONE` exactly as in the source's `default:` branch. -/
def sdlButtonToGamepadButton : Nat → GamepadButton
  | 0 => .A
  | 1 => .B
  | 2 => .X
  | 3 => .Y
  | 4 => .BACK
  | 5 => .GUIDE
  | 6 => .START
  | 7 => .LEFTSTICK
  | 8 => .RIGHTSTICK
  | 9 => .LEFTSHOULDER
  | 10 => .RIGHTSHOULDER
  | 11 => .DPAD_UP
  | 12 => .DPAD_DOWN
  | 13 => .DPAD_LEFT
  | 14 => .DPAD_RIGHT
  | 15 => .MISC1
  | _ => .NONE

/-- `InputManager::sdlAxisToGamepadAxis` (lines 578-588). -/
def sdlAxisToGamepadAxis : Nat → GamepadAxis
  | 0 => .LEFTX
  | 1 => .LEFTY
  | 2 => .RIGHTX
  | 3 => .RIGHTY
  | 4 => .TRIGGERLEFT
  | 5 => .TRIGGERRIGHT
  | _ => .NONE

/-! ## Axis deadzone shaping (D2, `GamepadInput::getAxisValue`, lines 753-769) -/

/-- The deadzone-shaping computation of `GamepadInput::getAxisValue`
(lines 760-768), with the `constexpr float deadzone = 0.15f` generalized
into a parameter:
`if (abs(v) < deadzone) return 0; sign = v > 0 ? 1 : -1;
 return sign * (abs(v) - deadzone) / (1 - deadzone);`.
Float arithmetic is modelled exactly over `ℚ` (which carries its usual
metric/order topology, so continuity is statable). -/
def shapeAxis (deadzone v : ℚ) : ℚ :=
  if |v| < deadzone then 0
  else (if 0 < v then 1 else -1) * (|v| - deadzone) / (1 - deadzone)

/-- The spec's closed form for deadzone shaping, written from the spec's
words (`shaped(v) = sign(v) * max(0, |v| − deadzone) / (1 − deadzone)`),
for comparison with `shapeAxis`. -/
def specShapedFormula (deadzone v : ℚ) : ℚ :=
  (SignType.sign v : ℚ) * max 0 (|v| - deadzone) / (1 - deadzone)

/-- The `constexpr float deadzone = 0.15f` inside `GamepadInput::getAxisValue`
(line 761). -/
def gamepadInputDeadzone : ℚ := 15 / 100

/-- The default value `0.25f` of the `deadzone` parameter of
`InputManager::bindGamepadAxisCommand` (line 74). -/
def bindGamepadAxisDefaultDeadzone : ℚ := 25 / 100

/-! ## D2 `KeyboardInput` (lines 596-629) -/

/-- State of D2's `KeyboardInput`.  `keyboardStatePtrSet` models whether the
`keyboardState` pointer is non-null (it is `nullptr` only before the first
`update`); reads through the pointer are modelled by reading the current
frame's source directly, since the pointer aliases SDL's live array. -/
structure KeyboardInput where
  keyboardStatePtrSet : Bool
  previousKeyboardState : Nat → Bool

/-- `KeyboardInput::KeyboardInput` (lines 602-604): null pointer, previous
array zeroed by `memset`. -/
def KeyboardInput.initial : KeyboardInput :=
  { keyboardStatePtrSet := false, previousKeyboardState := fun _ => false }

/-- `KeyboardInput::update` (lines 606-614).  `frameKeys` is the contents of
SDL's live key-state array during the current frame (already refreshed by the
event pumping that precedes device updates).  The code first fetches the
pointer (`keyboardState = SDL_GetKeyboardState(&numKeys)`) and then does
`memcpy(previousKeyboardState, keyboardState, SDL_NUM_SCANCODES)` — reading
through the live pointer, i.e. copying the current frame's contents. -/
def KeyboardInput.update (frameKeys : Nat → Bool) (_kb : KeyboardInput) :
    KeyboardInput :=
  { keyboardStatePtrSet := true
    previousKeyboardState := fun i => frameKeys i }

/-- `KeyboardInput::isAvailable` (lines 616-618). -/
def KeyboardInput.isAvailable (kb : KeyboardInput) : Bool :=
  kb.keyboardStatePtrSet

/-- `KeyboardInput::isKeyPressed` (lines 620-623); reading `keyboardState[key]`
through the live pointer yields the current frame source. -/
def KeyboardInput.isKeyPressed (frameKeys : Nat → Bool) (kb : KeyboardInput)
    (key : Nat) : Bool :=
  if kb.isAvailable = false then false
  else frameKeys key

/-- `KeyboardInput::isKeyJustPressed` (lines 625-628). -/
def KeyboardInput.isKeyJustPressed (frameKeys : Nat → Bool)
    (kb : KeyboardInput) (key : Nat) : Bool :=
  if kb.isAvailable = false then false
  else frameKeys key && !(kb.previousKeyboardState key)

/-! ## D2 `GamepadInput` (lines 670-770) -/

/-- Per-update platform environment seen by D2's `GamepadInput::update`:
`joysticks` is the list of joystick indices `i < SDL_NumJoysticks()` for which
`SDL_IsGameController(i)` holds, in index order; `openOk i` tells whether
`SDL_GameControllerOpen(i)` succeeds; `attached h` is
`SDL_GameControllerGetAttached` for the handle opened on index `h`;
`buttons h i` / `axes h i` are the raw reads for that handle. -/
structure GamepadEnv where
  joysticks : List Nat
  openOk : Nat → Bool
  attached : Nat → Bool
  buttons : Nat → Nat → Bool
  axes : Nat → Nat → Int

/-- State of D2's `GamepadInput` (lines 671-687).  The controller handle is
modelled by the joystick index it was opened on (`none` = `nullptr`). -/
structure GamepadInput where
  controller : Option Nat
  controllerWasConnected : Bool
  previousButtonStates : Nat → Bool
  currentButtonStates : Nat → Bool
  axisValues : Nat → Int

/-- `GamepadInput::GamepadInput` (lines 683-687): null handle, all state
arrays zeroed. -/
def GamepadInput.initial : GamepadInput :=
  { controller := none, controllerWasConnected := false
    previousButtonStates := fun _ => false
    currentButtonStates := fun _ => false
    axisValues := fun _ => 0 }

/-- The controller-scan loop of `GamepadInput::update` (lines 700-709): try
each joystick index that is a game controller, keep the first that opens. -/
def GamepadInput.scanForController (env : GamepadEnv) : Option Nat :=
  (env.joysticks.filter env.openOk).head?

/-- `GamepadInput::update` (lines 695-733), in source order: (1) copy current
button states to previous; (2) if no handle is bound, scan and open; (3) if a
handle is bound but reports not-attached, close it; otherwise refresh button
and axis state from the handle. -/
def GamepadInput.update (env : GamepadEnv) (g : GamepadInput) : GamepadInput :=
  let g1 : GamepadInput := { g with previousButtonStates := g.currentButtonStates }
  let g2 : GamepadInput :=
    match g1.controller with
    | none => { g1 with controller := GamepadInput.scanForController env }
    | some _ => g1
  match g2.controller with
  | none => g2
  | some c =>
    if env.attached c = false then
      { g2 with controller := none, controllerWasConnected := false }
    else
      { g2 with
        controllerWasConnected := true
        currentButtonStates := fun i =>
          if i < sdlControllerButtonMax then env.buttons c i
          else g2.currentButtonStates i
        axisValues := fun i =>
          if i < sdlControllerAxisMax then env.axes c i
          else g2.axisValues i }

/-- `GamepadInput::isAvailable` (lines 735-737). -/
def GamepadInput.isAvailable (g : GamepadInput) : Bool :=
  g.controller ≠ none

/-- `GamepadInput::isButtonPressed` (lines 743-746). -/
def GamepadInput.isButtonPressed (g : GamepadInput) (button : Nat) : Bool :=
  if g.isAvailable = false ∨ sdlControllerButtonMax ≤ button then false
  else g.currentButtonStates button

/-- `GamepadInput::isButtonJustPressed` (lines 748-751). -/
def GamepadInput.isButtonJustPressed (g : GamepadInput) (button : Nat) : Bool :=
  if g.isAvailable = false ∨ sdlControllerButtonMax ≤ button then false
  else g.currentButtonStates button && !(g.previousButtonStates button)

/-- `GamepadInput::getAxisValue` (lines 753-769): guard, normalization by
`1/32768`, fixed `0.15` deadzone, then the sign/rescale computation. -/
def GamepadInput.getAxisValue (g : GamepadInput) (axis : Nat) : ℚ :=
  if g.isAvailable = false ∨ sdlControllerAxisMax ≤ axis then 0
  else
    let normalizedValue : ℚ := (g.axisValues axis : ℚ) * (1 / 32768)
    if |normalizedValue| < gamepadInputDeadzone then 0
    else
      (if 0 < normalizedValue then (1 : ℚ) else -1) *
        (|normalizedValue| - gamepadInputDeadzone) / (1 - gamepadInputDeadzone)

/-! ## Touch-point lifecycle (D1, `processEvent`, lines 310-364) -/

/-- `InputManager::TouchPoint` (lines 49-53). -/
structure TouchPoint where
  id : Int
  x : ℚ
  y : ℚ
  pressed : Bool
deriving DecidableEq

/-- The three touch-related SDL events handled by `processEvent`. -/
inductive TouchEvent where
  | fingerDown (id : Int) (x y : ℚ)
  | fingerUp (id : Int)
  | fingerMotion (id : Int) (x y : ℚ)

/-- The `SDL_FINGERDOWN` handler body (lines 310-334): replace the first
point with a matching id (then `break`), or `push_back` if none matched. -/
def fingerDownUpdate (p : TouchPoint) : List TouchPoint → List TouchPoint
  | [] => [p]
  | tp :: rest =>
    if tp.id = p.id then p :: rest
    else tp :: fingerDownUpdate p rest

/-- The `SDL_FINGERMOTION` handler body (lines 351-364): update position of
the first point with a matching id (then `break`). -/
def fingerMotionUpdate (i : Int) (nx ny : ℚ) :
    List TouchPoint → List TouchPoint
  | [] => []
  | tp :: rest =>
    if tp.id = i then { tp with x := nx, y := ny } :: rest
    else tp :: fingerMotionUpdate i nx ny rest

/-- The touch cases of `InputManager::processEvent` (lines 310-364); the
`SDL_FINGERUP` handler erases every point with a matching id. -/
def processTouchEvent (pts : List TouchPoint) : TouchEvent → List TouchPoint
  | .fingerDown i x y => fingerDownUpdate { id := i, x := x, y := y, pressed := true } pts
  | .fingerUp i => pts.filter (fun tp => tp.id ≠ i)
  | .fingerMotion i x y => fingerMotionUpdate i x y pts

/-- `m_touchPoints` after processing a sequence of touch events starting from
the empty vector; `InputManager::getTouchPoints` returns this list. -/
def runTouchEvents (events : List TouchEvent) : List TouchPoint :=
  events.foldl processTouchEvent []

/-- `InputManager::isTouchActive` (lines 465-467). -/
def isTouchActive (pts : List TouchPoint) : Bool :=
  !pts.isEmpty

/-- The ids of a touch-point list. -/
def touchIds (pts : List TouchPoint) : List Int :=
  pts.map (fun tp => tp.id)

/-! ## D1 binding tables and dispatch (lines 205-250 and 368-386)

`m_keyCommands` / `m_mouseCommands` / `m_gamepadButtonCommands` are
`unordered_map`s from an identifier to a callback, and
`m_gamepadAxisCommands` maps an axis to a (callback, deadzone) pair; the
three digital tables and the three digital dispatch loops are identical
modulo the identifier type, so they are embedded once, generically.  A table
is a list of entries with pairwise-distinct keys (the `unordered_map`
invariant); entry order stands in for the map's unspecified iteration
order. -/

/-- `table[key] = value` on an `unordered_map` modelled as an association
list: overwrite the entry holding `key`, or append a new entry.  This is
`bindKeyCommand` / `bindMouseCommand` / `bindGamepadButtonCommand` (lines
368-378) with `β = callback token`, and `bindGamepadAxisCommand` (lines
380-382) with `β = callback token × deadzone`. -/
def bindCommand {κ β : Type} [DecidableEq κ] (k : κ) (v : β) :
    List (κ × β) → List (κ × β)
  | [] => [(k, v)]
  | kc :: rest =>
    if kc.1 = k then (k, v) :: rest
    else kc :: bindCommand k v rest

/-- The keys of a binding table. -/
def tableKeys {κ β : Type} (cmds : List (κ × β)) : List κ :=
  cmds.map Prod.fst

/-- One digital dispatch loop of `InputManager::update` (lines 212-233):
for each bound identifier currently down, invoke its callback with
`deltaTime`.  The result is the list of performed invocations
(identifier, callback token, payload) in loop order. -/
def dispatchDigital {κ : Type} (isDown : κ → Bool) (cmds : List (κ × Nat))
    (deltaTime : ℚ) : List (κ × Nat × ℚ) :=
  cmds.filterMap (fun kc =>
    if isDown kc.1 then some (kc.1, kc.2, deltaTime) else none)

/-- The gamepad-axis dispatch loop of `InputManager::update` (lines 236-243):
`value = getGamepadAxisValue(axis)`; if `abs(value) > deadzone`, invoke the
callback with `value` (not with `deltaTime`).  The result is the list of
performed invocations (axis, callback token, payload) in loop order. -/
def dispatchAxis (axisValue : GamepadAxis → ℚ)
    (cmds : List (GamepadAxis × Nat × ℚ)) (_deltaTime : ℚ) :
    List (GamepadAxis × Nat × ℚ) :=
  cmds.filterMap (fun ad =>
    let value := axisValue ad.1
    if |value| > ad.2.2 then some (ad.1, ad.2.1, value) else none)

/-- Number of invocations a dispatch produced for identifier `k`; used for
the held-button counter scenario. -/
def invocationsFor {κ : Type} [DecidableEq κ] (k : κ)
    (out : List (κ × Nat × ℚ)) : Nat :=
  (out.filter (fun r => r.1 = k)).length

/-! ## D1 `InputManager` state (lines 105-140, 149-196, 252-299, 388-459,
473-514) -/

/-- Per-update platform reads for D1's `updateGamepadState`: raw button and
axis reads by SDL index for the open handle. -/
structure GamepadSource where
  buttons : Nat → Bool
  axes : Nat → Int

/-- Joystick environment for D1's controller scans (in `init` and in the
`SDL_CONTROLLERDEVICEREMOVED` handler): `joysticks` lists the indices that
are game controllers, `openOk` tells which of them open successfully. -/
structure HotplugEnv where
  joysticks : List Nat
  openOk : Nat → Bool

/-- The "open the first available game controller" loop (lines 181-190 and
288-297). -/
def firstOpenableController (pads : HotplugEnv) : Option Nat :=
  (pads.joysticks.filter pads.openOk).head?

/-- D1 `InputManager` state (fields from lines 105-134 that the claims
need).  `currentKeyboardStatePtr` is the `m_currentKeyboardState` pointer:
`none` = `nullptr`; reads through it are modelled by the caller-supplied
current frame source.  The gamepad maps are `unordered_map`s: `none` models
"key absent" (a failed `find`). -/
structure InputManagerD1 where
  gameController : Option Nat
  gameControllerIndex : Int
  currentKeyboardStatePtr : Option Unit
  previousKeyState : Nat → Bool
  currentGamepadButtonState : GamepadButton → Option Bool
  previousGamepadButtonState : GamepadButton → Option Bool
  gamepadAxisValues : GamepadAxis → Option ℚ

/-- `InputManager::InputManager` (lines 149-159): null controller, index -1,
null keyboard pointer, empty maps. -/
def InputManagerD1.mk0 : InputManagerD1 :=
  { gameController := none
    gameControllerIndex := -1
    currentKeyboardStatePtr := none
    previousKeyState := fun _ => false
    currentGamepadButtonState := fun _ => none
    previousGamepadButtonState := fun _ => none
    gamepadAxisValues := fun _ => none }

/-- The success path of `InputManager::init` (lines 165-196): fetch the
keyboard-state pointer, then open the first available game controller. -/
def InputManagerD1.init (pads : HotplugEnv) (s : InputManagerD1) :
    InputManagerD1 :=
  let s1 : InputManagerD1 := { s with currentKeyboardStatePtr := some () }
  match firstOpenableController pads with
  | some i => { s1 with gameController := some i, gameControllerIndex := (i : Int) }
  | none => s1

/-- `InputManager::isKeyDown` (lines 388-391): dereferences
`m_currentKeyboardState` unguarded; `none` models the null-pointer
dereference (undefined behavior) that happens when `init` has not run.
`frameKeys` is the live SDL key-state array's current contents (keycode →
scancode translation modelled as the identity). -/
def InputManagerD1.isKeyDown (frameKeys : Nat → Bool) (s : InputManagerD1)
    (key : Nat) : Option Bool :=
  match s.currentKeyboardStatePtr with
  | none => none
  | some _ => some (frameKeys key)

/-- `InputManager::isKeyPressed` (lines 393-398); same unguarded
dereference. -/
def InputManagerD1.isKeyPressed (frameKeys : Nat → Bool) (s : InputManagerD1)
    (key : Nat) : Option Bool :=
  match s.currentKeyboardStatePtr with
  | none => none
  | some _ => some (frameKeys key && !(s.previousKeyState key))

/-- `InputManager::isKeyReleased` (lines 400-405); same unguarded
dereference. -/
def InputManagerD1.isKeyReleased (frameKeys : Nat → Bool) (s : InputManagerD1)
    (key : Nat) : Option Bool :=
  match s.currentKeyboardStatePtr with
  | none => none
  | some _ => some (!(frameKeys key) && s.previousKeyState key)

/-- `InputManager::isGamepadButtonDown` (lines 431-434): map lookup with
`false` when the key is absent. -/
def InputManagerD1.isGamepadButtonDown (s : InputManagerD1)
    (button : GamepadButton) : Bool :=
  (s.currentGamepadButtonState button).getD false

/-- `InputManager::isGamepadButtonPressed` (lines 436-444). -/
def InputManagerD1.isGamepadButtonPressed (s : InputManagerD1)
    (button : GamepadButton) : Bool :=
  (s.currentGamepadButtonState button).getD false &&
    !((s.previousGamepadButtonState button).getD false)

/-- `InputManager::isGamepadButtonReleased` (lines 446-454). -/
def InputManagerD1.isGamepadButtonReleased (s : InputManagerD1)
    (button : GamepadButton) : Bool :=
  !((s.currentGamepadButtonState button).getD false) &&
    (s.previousGamepadButtonState button).getD false

/-- `InputManager::getGamepadAxisValue` (lines 456-459): map lookup with
`0.0` when the key is absent. -/
def InputManagerD1.getGamepadAxisValue (s : InputManagerD1)
    (axis : GamepadAxis) : ℚ :=
  (s.gamepadAxisValues axis).getD 0

/-- The button-refresh loop of `updateGamepadState` (lines 494-500): for each
SDL button index, if it maps to a `GamepadButton` other than `NONE`, store
the raw read in `m_currentGamepadButtonState`. -/
def updateButtonsD1 (src : Nat → Bool) (m : GamepadButton → Option Bool) :
    GamepadButton → Option Bool :=
  (List.range sdlControllerButtonMax).foldl
    (fun acc i =>
      let button := sdlButtonToGamepadButton i
      if button = GamepadButton.NONE then acc
      else fun b => if b = button then some (src i) else acc b)
    m

/-- The axis-refresh loop of `updateGamepadState` (lines 506-512): each axis
value is the raw `Sint16` read divided by `32767.0f` — no deadzone, no
shaping. -/
def updateAxesD1 (src : Nat → Int) (m : GamepadAxis → Option ℚ) :
    GamepadAxis → Option ℚ :=
  (List.range sdlControllerAxisMax).foldl
    (fun acc i =>
      let axis := sdlAxisToGamepadAxis i
      if axis = GamepadAxis.NONE then acc
      else fun a => if a = axis then some ((src i : ℚ) / 32767) else acc a)
    m

/-- `InputManager::updateGamepadState` (lines 488-514): a no-op when no
controller is open; otherwise copy current button states to previous, then
refresh buttons and axes from the handle. -/
def updateGamepadStateD1 (src : GamepadSource) (s : InputManagerD1) :
    InputManagerD1 :=
  match s.gameController with
  | none => s
  | some _ =>
    { s with
      previousGamepadButtonState := s.currentGamepadButtonState
      currentGamepadButtonState := updateButtonsD1 src.buttons s.currentGamepadButtonState
      gamepadAxisValues := updateAxesD1 src.axes s.gamepadAxisValues }

/-- The `SDL_CONTROLLERDEVICEREMOVED` case of `InputManager::processEvent`
(lines 280-299): if the removed index is the bound one, close the handle,
reset the index, and immediately rescan for another controller. -/
def processControllerRemoved (which : Int) (pads : HotplugEnv)
    (s : InputManagerD1) : InputManagerD1 :=
  if s.gameController ≠ none ∧ which = s.gameControllerIndex then
    let s1 : InputManagerD1 := { s with gameController := none, gameControllerIndex := -1 }
    match firstOpenableController pads with
    | some i => { s1 with gameController := some i, gameControllerIndex := (i : Int) }
    | none => s1
  else s

/-! ## Concrete scenario inputs (used as counterexample/witness states) -/

/-- Joystick environment with no compatible device. -/
def padsNone : HotplugEnv := { joysticks := [], openOk := fun _ => false }

/-- Joystick environment with one compatible device at index 0. -/
def padsZero : HotplugEnv := { joysticks := [0], openOk := fun _ => true }

/-- Raw gamepad reads: SDL button 0 (= A) held, every axis at 16384. -/
def srcA16384 : GamepadSource :=
  { buttons := fun i => i == 0, axes := fun _ => 16384 }

/-- D1 manager state reached by: `init` with a gamepad at index 0, one
`updateGamepadState` capturing button A down and axes at 16384, then a
`SDL_CONTROLLERDEVICEREMOVED` for index 0 with no replacement available. -/
def c4Stale : InputManagerD1 :=
  processControllerRemoved 0 padsNone
    (updateGamepadStateD1 srcA16384
      (InputManagerD1.init padsZero InputManagerD1.mk0))

/-- D2 gamepad state with a handle bound on joystick index 0. -/
def c6Gamepad : GamepadInput :=
  { GamepadInput.initial with controller := some 0 }

/-- D1 manager state with a controller handle open on index 0. -/
def c9Manager : InputManagerD1 :=
  { InputManagerD1.mk0 with gameController := some 0 }

/-- D2 gamepad state with a handle on index 0 and every raw axis at 16384. -/
def c9Gamepad : GamepadInput :=
  { GamepadInput.initial with
    controller := some 0
    axisValues := fun _ => 16384 }

/-- Environment in which handle 0 reports not-attached while joystick 1 is
a compatible, openable, attached replacement. -/
def c6Env : GamepadEnv :=
  { joysticks := [1], openOk := fun _ => true, attached := fun c => c == 1,
    buttons := fun _ i => i == 2, axes := fun _ _ => 0 }

/-! ## Lemmas: axis deadzone shaping -/

/-- `shapeAxis` equals the spec's closed form whenever the deadzone is
nonnegative. -/
theorem shapeAxis_eq_spec {d : ℚ} (hd0 : 0 ≤ d) (v : ℚ) :
    shapeAxis d v = specShapedFormula d v := by
  unfold shapeAxis specShapedFormula
  by_cases h : |v| < d
  · rw [if_pos h, max_eq_left (by linarith), mul_zero, zero_div]
  · rw [if_neg h]
    push_neg at h
    rw [max_eq_right (by linarith)]
    rcases lt_trichotomy 0 v with hv | hv | hv
    · rw [if_pos hv, sign_pos hv, SignType.coe_one]
    · have hd : d = 0 := by
        have : |v| = 0 := by rw [← hv, abs_zero]
        linarith [h, this]
      subst hv
      simp [hd]
    · rw [if_neg (by linarith), sign_neg hv, SignType.coe_neg_one]

/-- `shapeAxis` collapses to `0` on the whole deadzone, boundary included. -/
theorem shapeAxis_eq_zero {d v : ℚ} (hv : |v| ≤ d) : shapeAxis d v = 0 := by
  unfold shapeAxis
  by_cases h : |v| < d
  · rw [if_pos h]
  · rw [if_neg h]
    have : |v| - d = 0 := by push_neg at h; linarith
    rw [this, mul_zero, zero_div]

/-- Magnitude of the shaped value outside the deadzone. -/
theorem abs_shapeAxis {d v : ℚ} (hd1 : d < 1) (h : d ≤ |v|) :
    |shapeAxis d v| = (|v| - d) / (1 - d) := by
  unfold shapeAxis
  rw [if_neg (not_lt.2 h), abs_div, abs_mul]
  have h1 : |(if 0 < v then (1 : ℚ) else -1)| = 1 := by split <;> norm_num
  rw [h1, one_mul, abs_of_nonneg (by linarith : (0 : ℚ) ≤ |v| - d),
    abs_of_nonneg (by linarith : (0 : ℚ) ≤ 1 - d)]

/-- `shapeAxis d` rewritten as a two-piece glue that is manifestly
continuous (the two pieces agree at `v = 0` when `0 ≤ d`). -/
theorem shapeAxis_eq_glue {d : ℚ} (hd0 : 0 ≤ d) :
    shapeAxis d =
      fun v => (if (0 : ℚ) ≤ v then max 0 (v - d) else -(max 0 (-v - d))) / (1 - d) := by
  funext v
  unfold shapeAxis
  by_cases hv : (0 : ℚ) ≤ v
  · rw [if_pos hv, abs_of_nonneg hv]
    by_cases h : v < d
    · rw [if_pos h, max_eq_left (by linarith), zero_div]
    · push_neg at h
      rw [if_neg (not_lt.2 h), max_eq_right (by linarith)]
      rcases eq_or_lt_of_le hv with hv0 | hv0
      · have hd : d = 0 := le_antisymm (by linarith [h, hv0]) hd0
        rw [if_neg (by rw [← hv0]; exact lt_irrefl 0), ← hv0, hd]
        norm_num
      · rw [if_pos hv0, one_mul]
  · push_neg at hv
    rw [if_neg (not_le.2 hv), abs_of_neg hv]
    by_cases h : -v < d
    · rw [if_pos h, max_eq_left (by linarith), neg_zero, zero_div]
    · push_neg at h
      rw [if_neg (not_lt.2 h), max_eq_right (by linarith),
        if_neg (by linarith)]
      ring

/-- `shapeAxis d` is continuous everywhere (for `0 ≤ d`), in particular at
the deadzone boundary. -/
theorem shapeAxis_continuous {d : ℚ} (hd0 : 0 ≤ d) :
    Continuous (shapeAxis d) := by
  rw [shapeAxis_eq_glue hd0]
  apply Continuous.div_const
  refine Continuous.if_le ?_ ?_ continuous_const continuous_id ?_
  · exact continuous_const.max (continuous_id.sub continuous_const)
  · exact (continuous_const.max (continuous_id.neg.sub continuous_const)).neg
  · intro a ha
    rw [← ha]
    have : max (0 : ℚ) (-(0 : ℚ) - d) = 0 := max_eq_left (by linarith)
    rw [show (0 : ℚ) - d = -0 - d by ring, this, neg_zero]

/-! ## Lemmas: touch-point lifecycle -/

theorem touchIds_cons (tp : TouchPoint) (rest : List TouchPoint) :
    touchIds (tp :: rest) = tp.id :: touchIds rest := rfl

/-- Ids after a finger-down: unchanged if the id was present, appended
otherwise. -/
theorem touchIds_fingerDownUpdate (p : TouchPoint) (pts : List TouchPoint) :
    touchIds (fingerDownUpdate p pts) =
      if p.id ∈ touchIds pts then touchIds pts else touchIds pts ++ [p.id] := by
  induction pts with
  | nil => simp [fingerDownUpdate, touchIds]
  | cons tp rest ih =>
    by_cases h : tp.id = p.id
    · rw [fingerDownUpdate, if_pos h, touchIds_cons, touchIds_cons,
        if_pos (List.mem_cons.2 (Or.inl h.symm))]
      rw [h]
    · rw [fingerDownUpdate, if_neg h, touchIds_cons, touchIds_cons, ih]
      have hmem : p.id ∈ tp.id :: touchIds rest ↔ p.id ∈ touchIds rest := by
        constructor
        · intro hc
          rcases List.mem_cons.1 hc with he | hm
          · exact absurd he.symm h
          · exact hm
        · exact List.mem_cons_of_mem _
      by_cases hm : p.id ∈ touchIds rest
      · rw [if_pos hm, if_pos (hmem.2 hm)]
      · rw [if_neg hm, if_neg (fun hc => hm (hmem.1 hc)), List.cons_append]

/-- Finger-motion does not change the ids (positions are updated in
place). -/
theorem touchIds_fingerMotionUpdate (i : Int) (nx ny : ℚ)
    (pts : List TouchPoint) :
    touchIds (fingerMotionUpdate i nx ny pts) = touchIds pts := by
  induction pts with
  | nil => rfl
  | cons tp rest ih =>
    by_cases h : tp.id = i
    · rw [fingerMotionUpdate, if_pos h]; rfl
    · rw [fingerMotionUpdate, if_neg h, touchIds_cons, touchIds_cons, ih]

/-- Every touch handler preserves distinctness of ids. -/
theorem nodup_processTouchEvent {pts : List TouchPoint}
    (h : (touchIds pts).Nodup) (e : TouchEvent) :
    (touchIds (processTouchEvent pts e)).Nodup := by
  cases e with
  | fingerDown i x y =>
    rw [processTouchEvent, touchIds_fingerDownUpdate]
    split
    · exact h
    · rename_i hm
      rw [List.nodup_append]
      exact ⟨h, List.nodup_singleton _, by simpa using hm⟩
  | fingerUp i =>
    exact ((List.filter_sublist pts).map _).nodup h
  | fingerMotion i x y =>
    rw [processTouchEvent, touchIds_fingerMotionUpdate]
    exact h

/-- Distinctness of ids holds after any event sequence from any state that
satisfies it. -/
theorem nodup_foldl_touch (evs : List TouchEvent) :
    ∀ pts : List TouchPoint, (touchIds pts).Nodup →
      (touchIds (evs.foldl processTouchEvent pts)).Nodup := by
  induction evs with
  | nil => intro pts h; exact h
  | cons e rest ih =>
    intro pts h
    rw [List.foldl_cons]
    exact ih _ (nodup_processTouchEvent h e)

/-- Finger-down with an unseen id appends the new point. -/
theorem fingerDownUpdate_new {p : TouchPoint} {pts : List TouchPoint}
    (h : p.id ∉ touchIds pts) : fingerDownUpdate p pts = pts ++ [p] := by
  induction pts with
  | nil => rfl
  | cons tp rest ih =>
    rw [touchIds_cons] at h
    rw [fingerDownUpdate,
      if_neg (fun hc => h (List.mem_cons.2 (Or.inl hc.symm))),
      ih (fun hc => h (List.mem_cons_of_mem _ hc)), List.cons_append]

/-- Finger-motion updates the position of the (unique) point with the given
id, keeping its id and pressed flag. -/
theorem fingerMotionUpdate_mem {pts : List TouchPoint} {tp : TouchPoint}
    {i : Int} (hmem : tp ∈ pts) (hid : tp.id = i)
    (hnd : (touchIds pts).Nodup) (nx ny : ℚ) :
    { tp with x := nx, y := ny } ∈ fingerMotionUpdate i nx ny pts := by
  induction pts with
  | nil => cases hmem
  | cons hd rest ih =>
    rw [touchIds_cons, List.nodup_cons] at hnd
    rcases List.mem_cons.1 hmem with rfl | hmem2
    · rw [fingerMotionUpdate, if_pos hid]
      exact List.mem_cons_self _ _
    · by_cases hh : hd.id = i
      · exfalso
        apply hnd.1
        rw [hh, ← hid]
        exact List.mem_map_of_mem _ hmem2
      · rw [fingerMotionUpdate, if_neg hh]
        exact List.mem_cons_of_mem _ (ih hmem2 hnd.2)

/-- Finger-up removes the id entirely. -/
theorem fingerUp_removes (pts : List TouchPoint) (i : Int) :
    i ∉ touchIds (processTouchEvent pts (.fingerUp i)) := by
  intro hc
  rw [processTouchEvent, touchIds] at hc
  rcases List.mem_map.1 hc with ⟨tp, htp, hid⟩
  rcases List.mem_filter.1 htp with ⟨_, hne⟩
  simp only [ne_eq, decide_eq_true_eq] at hne
  exact hne hid

/-! ## Lemmas: binding tables and dispatch -/

theorem tableKeys_cons {κ β : Type} (kc : κ × β) (rest : List (κ × β)) :
    tableKeys (kc :: rest) = kc.1 :: tableKeys rest := rfl

/-- Keys after a bind: unchanged if the key was bound, appended otherwise. -/
theorem tableKeys_bindCommand {κ β : Type} [DecidableEq κ] (k : κ) (v : β)
    (cmds : List (κ × β)) :
    tableKeys (bindCommand k v cmds) =
      if k ∈ tableKeys cmds then tableKeys cmds else tableKeys cmds ++ [k] := by
  induction cmds with
  | nil => simp [bindCommand, tableKeys]
  | cons kc rest ih =>
    by_cases h : kc.1 = k
    · rw [bindCommand, if_pos h, tableKeys_cons, tableKeys_cons,
        if_pos (List.mem_cons.2 (Or.inl h.symm))]
      rw [h]
    · rw [bindCommand, if_neg h, tableKeys_cons, tableKeys_cons, ih]
      have hmem : k ∈ kc.1 :: tableKeys rest ↔ k ∈ tableKeys rest := by
        constructor
        · intro hc
          rcases List.mem_cons.1 hc with he | hm
          · exact absurd he.symm h
          · exact hm
        · exact List.mem_cons_of_mem _
      by_cases hm : k ∈ tableKeys rest
      · rw [if_pos hm, if_pos (hmem.2 hm)]
      · rw [if_neg hm, if_neg (fun hc => hm (hmem.1 hc)), List.cons_append]

/-- Bind preserves distinctness of keys. -/
theorem nodup_bindCommand {κ β : Type} [DecidableEq κ] {cmds : List (κ × β)}
    (h : (tableKeys cmds).Nodup) (k : κ) (v : β) :
    (tableKeys (bindCommand k v cmds)).Nodup := by
  rw [tableKeys_bindCommand]
  split
  · exact h
  · rename_i hm
    rw [List.nodup_append]
    exact ⟨h, List.nodup_singleton _, by simpa using hm⟩

/-- The bound entry is in the table after a bind. -/
theorem bindCommand_mem {κ β : Type} [DecidableEq κ] (k : κ) (v : β)
    (cmds : List (κ × β)) : (k, v) ∈ bindCommand k v cmds := by
  induction cmds with
  | nil => exact List.mem_cons_self _ _
  | cons kc rest ih =>
    rw [bindCommand]
    split
    · exact List.mem_cons_self _ _
    · exact List.mem_cons_of_mem _ ih

/-- Rebinding a key replaces its earlier binding outright. -/
theorem bindCommand_overwrite {κ β : Type} [DecidableEq κ]
    (cmds : List (κ × β)) (k : κ) (f g : β) :
    bindCommand k g (bindCommand k f cmds) = bindCommand k g cmds := by
  induction cmds with
  | nil => simp [bindCommand]
  | cons kc rest ih =>
    by_cases h : kc.1 = k
    · simp [bindCommand, h]
    · simp [bindCommand, h, ih]

theorem dispatchDigital_cons {κ : Type} (isDown : κ → Bool) (kc : κ × Nat)
    (rest : List (κ × Nat)) (dt : ℚ) :
    dispatchDigital isDown (kc :: rest) dt =
      (if isDown kc.1 then [(kc.1, kc.2, dt)] else []) ++
        dispatchDigital isDown rest dt := by
  rw [dispatchDigital, dispatchDigital, List.filterMap_cons]
  split
  · rename_i hcond heq
    rw [if_neg (by simpa using heq)]
    rfl
  · rename_i val hcond heq
    split at heq
    · cases heq
      rename_i hdown
      rw [if_pos hdown]
      rfl
    · cases heq

/-- Every dispatched invocation comes from a bound key. -/
theorem dispatchDigital_key_mem {κ : Type} {isDown : κ → Bool}
    {cmds : List (κ × Nat)} {dt : ℚ} {r : κ × Nat × ℚ}
    (hr : r ∈ dispatchDigital isDown cmds dt) : r.1 ∈ tableKeys cmds := by
  rcases List.mem_filterMap.1 hr with ⟨kc, hkc, hf⟩
  by_cases h : isDown kc.1
  · rw [if_pos h] at hf
    cases hf
    exact List.mem_map_of_mem _ hkc
  · rw [if_neg h] at hf
    cases hf

theorem dispatchDigital_filter_of_not_mem {κ : Type} [DecidableEq κ]
    {cmds : List (κ × Nat)} {k : κ} (h : k ∉ tableKeys cmds)
    (isDown : κ → Bool) (dt : ℚ) :
    (dispatchDigital isDown cmds dt).filter (fun r => r.1 = k) = [] := by
  rw [List.filter_eq_nil_iff]
  intro r hr
  simp only [decide_eq_true_eq]
  intro hc
  exact h (hc ▸ dispatchDigital_key_mem hr)

/-- On a table with distinct keys, a bound identifier that is down produces
exactly one invocation (with payload `deltaTime`), and an identifier that is
not down produces none. -/
theorem dispatchDigital_filter_eq {κ : Type} [DecidableEq κ]
    {cmds : List (κ × Nat)} {k : κ} {cb : Nat}
    (hnd : (tableKeys cmds).Nodup) (hmem : (k, cb) ∈ cmds)
    (isDown : κ → Bool) (dt : ℚ) :
    (dispatchDigital isDown cmds dt).filter (fun r => r.1 = k) =
      if isDown k then [(k, cb, dt)] else [] := by
  induction cmds with
  | nil => cases hmem
  | cons kc rest ih =>
    rw [tableKeys_cons, List.nodup_cons] at hnd
    rw [dispatchDigital_cons, List.filter_append]
    rcases List.mem_cons.1 hmem with heq | hmem2
    · have hk1 : kc.1 = k := by rw [← heq]
      have hk : k ∉ tableKeys rest := hk1 ▸ hnd.1
      rw [dispatchDigital_filter_of_not_mem hk, List.append_nil, hk1, ← heq]
      split
      · simp
      · simp
    · have hkrest : k ∈ tableKeys rest := List.mem_map_of_mem _ hmem2
      have hne : kc.1 ≠ k := fun h => hnd.1 (h ▸ hkrest)
      have h1 : List.filter (fun r => decide (r.1 = k))
          (if isDown kc.1 then [(kc.1, kc.2, dt)] else []) = [] := by
        split <;> simp [hne]
      rw [h1, List.nil_append, ih hnd.2 hmem2]

/-- The axis dispatch loop invokes exactly the bindings whose *raw* stored
axis value exceeds their deadzone in magnitude, passing that raw value as
payload. -/
theorem dispatchAxis_eq (axisValue : GamepadAxis → ℚ)
    (cmds : List (GamepadAxis × Nat × ℚ)) (dt : ℚ) :
    dispatchAxis axisValue cmds dt =
      (cmds.filter (fun ad => |axisValue ad.1| > ad.2.2)).map
        (fun ad => (ad.1, ad.2.1, axisValue ad.1)) := by
  induction cmds with
  | nil => rfl
  | cons ad rest ih =>
    rw [dispatchAxis, List.filterMap_cons, List.filter_cons]
    by_cases h : |axisValue ad.1| > ad.2.2
    · rw [if_pos h, if_pos (by simpa using h), List.map_cons]
      rw [dispatchAxis] at ih
      rw [ih]
    · rw [if_neg h, if_neg (by simpa using h)]
      rw [dispatchAxis] at ih
      rw [ih]

/-- Single-binding form of the axis dispatch behaviour. -/
theorem dispatchAxis_singleton (axisValue : GamepadAxis → ℚ)
    (a : GamepadAxis) (cb : Nat) (dz : ℚ) (dt : ℚ) :
    dispatchAxis axisValue [(a, cb, dz)] dt =
      if |axisValue a| > dz then [(a, cb, axisValue a)] else [] := by
  rw [dispatchAxis_eq, List.filter_cons]
  by_cases h : |axisValue a| > dz
  · rw [if_pos (by simpa using h), if_pos h]
    rfl
  · rw [if_neg (by simpa using h), if_neg h]
    rfl

/-- C2: the axis deadzone shaping function satisfies the spec's closed form
`shaped(v) = sign(v) * max(0, |v| − deadzone) / (1 − deadzone)` for every
deadzone in `[0,1)`; it is `0` for `|v| ≤ deadzone`, strictly increasing in
magnitude on `deadzone < |v| ≤ 1`, maps `1` to `1`, is continuous at the
deadzone boundary (both sides), and its magnitude never exceeds `1` for
`|v| ≤ 1`. -/
theorem claim_C2 (d : ℚ) (hd0 : 0 ≤ d) (hd1 : d < 1) :
    (∀ v, shapeAxis d v = specShapedFormula d v) ∧
    (∀ v, |v| ≤ d → shapeAxis d v = 0) ∧
    (∀ v1 v2, d < |v1| → |v1| < |v2| → |v2| ≤ 1 →
      |shapeAxis d v1| < |shapeAxis d v2|) ∧
    shapeAxis d 1 = 1 ∧
    ContinuousAt (shapeAxis d) d ∧
    ContinuousAt (shapeAxis d) (-d) ∧
    (∀ v, |v| ≤ 1 → |shapeAxis d v| ≤ 1) := by
  have hpos : (0 : ℚ) < 1 - d := by linarith
  refine ⟨fun v => shapeAxis_eq_spec hd0 v, fun v hv => shapeAxis_eq_zero hv,
    ?_, ?_, (shapeAxis_continuous hd0).continuousAt,
    (shapeAxis_continuous hd0).continuousAt, ?_⟩
  · intro v1 v2 h1 h12 h2
    rw [abs_shapeAxis hd1 h1.le, abs_shapeAxis hd1 (by linarith)]
    exact div_lt_div_iff_of_pos_right hpos |>.2 (by linarith)
  · unfold shapeAxis
    rw [abs_one, if_neg (not_lt.2 hd1.le), if_pos (by norm_num : (0 : ℚ) < 1),
      one_mul, div_self (by linarith)]
  · intro v hv
    by_cases h : |v| < d
    · rw [shapeAxis_eq_zero h.le, abs_zero]
      norm_num
    · push_neg at h
      rw [abs_shapeAxis hd1 h]
      rw [div_le_one hpos]
      linarith

/-- Witness for C2 at the code's own deadzone `0.15`. -/
theorem claim_C2_witness :
    shapeAxis (15 / 100) 1 = 1 ∧ shapeAxis (15 / 100) (1 / 10) = 0 :=
  ⟨(claim_C2 (15 / 100) (by norm_num) (by norm_num)).2.2.2.1,
   (claim_C2 (15 / 100) (by norm_num) (by norm_num)).2.1 (1 / 10)
     (by rw [abs_of_nonneg (by norm_num : (0 : ℚ) ≤ 1 / 10)]; norm_num)⟩

/-! ## Claim theorems -/

/-- C1 (code-bug evidence): `KeyboardInput::update` copies the *already
refreshed* live key array into `previousKeyboardState` (the memcpy happens
after the pointer fetch, and the array contents were refreshed by the event
pump preceding device updates), so after any update `previous = current`
and `isKeyJustPressed` is identically false — in particular it is false on
the very first frame a key is observed down, where the spec requires it to
be true. -/
theorem claim_C1 :
    (∀ (frameKeys : Nat → Bool) (kb : KeyboardInput) (key : Nat),
      KeyboardInput.isKeyJustPressed frameKeys
        (KeyboardInput.update frameKeys kb) key = false) ∧
    KeyboardInput.isKeyPressed (fun k => k == 4)
      (KeyboardInput.update (fun k => k == 4) KeyboardInput.initial) 4 = true ∧
    KeyboardInput.isKeyJustPressed (fun k => k == 4)
      (KeyboardInput.update (fun k => k == 4) KeyboardInput.initial) 4 = false := by
  refine ⟨?_, rfl, rfl⟩
  intro frameKeys kb key
  simp [KeyboardInput.isKeyJustPressed, KeyboardInput.update,
    KeyboardInput.isAvailable]

/-- C5: touch-point ids are always pairwise distinct starting from the
empty set; a finger-down for an unseen id appends a new point; a
finger-motion for a present id updates that point's position in place (ids
unchanged); a finger-up removes the id; and the concrete id=3 scenario from
the spec holds. -/
theorem claim_C5 :
    (∀ events : List TouchEvent, (touchIds (runTouchEvents events)).Nodup) ∧
    (∀ (pts : List TouchPoint) (i : Int) (x y : ℚ), i ∉ touchIds pts →
      processTouchEvent pts (.fingerDown i x y) =
        pts ++ [{ id := i, x := x, y := y, pressed := true }]) ∧
    (∀ (pts : List TouchPoint) (tp : TouchPoint) (i : Int) (nx ny : ℚ),
      (touchIds pts).Nodup → tp ∈ pts → tp.id = i →
      touchIds (processTouchEvent pts (.fingerMotion i nx ny)) = touchIds pts ∧
      { tp with x := nx, y := ny } ∈ processTouchEvent pts (.fingerMotion i nx ny)) ∧
    (∀ (pts : List TouchPoint) (i : Int),
      i ∉ touchIds (processTouchEvent pts (.fingerUp i))) ∧
    runTouchEvents [.fingerDown 3 10 20, .fingerMotion 3 12 22] =
      [{ id := 3, x := 12, y := 22, pressed := true }] ∧
    runTouchEvents [.fingerDown 3 10 20, .fingerMotion 3 12 22, .fingerUp 3] = [] := by
  refine ⟨fun evs => nodup_foldl_touch evs [] (by simp [touchIds]),
    ?_, ?_, fingerUp_removes, by rfl, by rfl⟩
  · intro pts i x y h
    exact fingerDownUpdate_new h
  · intro pts tp i nx ny hnd hmem hid
    exact ⟨touchIds_fingerMotionUpdate i nx ny pts,
      fingerMotionUpdate_mem hmem hid hnd nx ny⟩

/-- Witness for C5's conditional parts at a concrete input. -/
theorem claim_C5_witness :
    processTouchEvent [] (.fingerDown 3 10 20) =
      [{ id := 3, x := 10, y := 20, pressed := true }] :=
  claim_C5.2.1 [] 3 10 20 (by simp [touchIds])

/-- C7: on a binding table with pairwise-distinct identifiers, a bound
digital identifier that is down during dispatch yields exactly one
invocation of its callback that frame, with `deltaTime` as payload, and no
invocation in frames where it is not down; holding a bound button for three
consecutive frames and releasing on the fourth yields exactly three
invocations in total. -/
theorem claim_C7 :
    (∀ (κ : Type) [DecidableEq κ] (isDown : κ → Bool) (cmds : List (κ × Nat))
        (dt : ℚ) (k : κ) (cb : Nat),
      (tableKeys cmds).Nodup → (k, cb) ∈ cmds →
      (dispatchDigital isDown cmds dt).filter (fun r => r.1 = k) =
        if isDown k then [(k, cb, dt)] else []) ∧
    ([true, true, true].map (fun down =>
        invocationsFor 0 (dispatchDigital (fun _ : Nat => down)
          (bindCommand 0 1 []) (1 / 60)))).sum = 3 ∧
    ([true, true, true, false].map (fun down =>
        invocationsFor 0 (dispatchDigital (fun _ : Nat => down)
          (bindCommand 0 1 []) (1 / 60)))).sum = 3 := by
  refine ⟨?_, rfl, rfl⟩
  intro κ _ isDown cmds dt k cb hnd hmem
  exact dispatchDigital_filter_eq hnd hmem isDown dt

/-- Witness for C7's conditional part at a concrete input. -/
theorem claim_C7_witness :
    (dispatchDigital (fun _ : Nat => true) [(0, 5)] 1).filter
      (fun r => r.1 = 0) = [(0, 5, 1)] := by
  have h := claim_C7.1 Nat (fun _ => true) [(0, 5)] 1 0 5
    (by simp [tableKeys]) (by simp)
  simpa using h

/-- C8: binding an identifier twice overwrites the earlier binding (the
second bind yields the same table as if the first had never happened, also
for the axis tables that carry a deadzone), rebinding with the same value
is idempotent, and only the most recent callback fires on subsequent
dispatches. -/
theorem claim_C8 :
    (∀ (κ β : Type) [DecidableEq κ] (cmds : List (κ × β)) (k : κ) (f g : β),
      bindCommand k g (bindCommand k f cmds) = bindCommand k g cmds) ∧
    (∀ (κ β : Type) [DecidableEq κ] (cmds : List (κ × β)) (k : κ) (f : β),
      bindCommand k f (bindCommand k f cmds) = bindCommand k f cmds) ∧
    (∀ (cmds : List (GamepadAxis × Nat × ℚ)) (a : GamepadAxis)
        (cb1 cb2 : Nat) (dz1 dz2 : ℚ),
      bindCommand a (cb2, dz2) (bindCommand a (cb1, dz1) cmds) =
        bindCommand a (cb2, dz2) cmds) ∧
    (∀ (κ : Type) [DecidableEq κ] (isDown : κ → Bool) (cmds : List (κ × Nat))
        (dt : ℚ) (k : κ) (f g : Nat),
      (tableKeys cmds).Nodup →
      (dispatchDigital isDown (bindCommand k g (bindCommand k f cmds)) dt).filter
          (fun r => r.1 = k) =
        if isDown k then [(k, g, dt)] else []) := by
  refine ⟨fun κ β _ cmds k f g => bindCommand_overwrite cmds k f g,
    fun κ β _ cmds k f => bindCommand_overwrite cmds k f f,
    fun cmds a cb1 cb2 dz1 dz2 => bindCommand_overwrite cmds a (cb1, dz1) (cb2, dz2),
    ?_⟩
  intro κ _ isDown cmds dt k f g hnd
  rw [bindCommand_overwrite]
  exact dispatchDigital_filter_eq (nodup_bindCommand hnd k g)
    (bindCommand_mem k g cmds) isDown dt

/-- Witness for C8's conditional part at a concrete input. -/
theorem claim_C8_witness :
    (dispatchDigital (fun _ : Nat => true)
        (bindCommand 0 2 (bindCommand 0 1 ([] : List (Nat × Nat)))) 1).filter
      (fun r => r.1 = 0) = [(0, 2, 1)] := by
  have h := claim_C8.2.2.2 Nat (fun _ => true) [] 1 0 1 2 (by simp [tableKeys])
  simpa using h

/-- C10: the binding-table `InputManager`'s keyboard queries dereference
`m_currentKeyboardState` unguarded, and that pointer is null until `init`
has run: on the freshly constructed manager every keyboard query is a
null-pointer dereference (modelled as `none`), while after a successful
`init` every keyboard query is a defined read (`isSome`). -/
theorem claim_C10 :
    InputManagerD1.mk0.currentKeyboardStatePtr = none ∧
    (∀ (frameKeys : Nat → Bool) (key : Nat),
      InputManagerD1.isKeyDown frameKeys InputManagerD1.mk0 key = none ∧
      InputManagerD1.isKeyPressed frameKeys InputManagerD1.mk0 key = none ∧
      InputManagerD1.isKeyReleased frameKeys InputManagerD1.mk0 key = none) ∧
    (∀ (pads : HotplugEnv) (s : InputManagerD1) (frameKeys : Nat → Bool) (key : Nat),
      (InputManagerD1.isKeyDown frameKeys (InputManagerD1.init pads s) key).isSome = true ∧
      (InputManagerD1.isKeyPressed frameKeys (InputManagerD1.init pads s) key).isSome = true ∧
      (InputManagerD1.isKeyReleased frameKeys (InputManagerD1.init pads s) key).isSome = true) := by
  have hptr : ∀ (pads : HotplugEnv) (s : InputManagerD1),
      (InputManagerD1.init pads s).currentKeyboardStatePtr = some () := by
    intro pads s
    unfold InputManagerD1.init
    cases firstOpenableController pads <;> rfl
  refine ⟨rfl, fun frameKeys key => ⟨rfl, rfl, rfl⟩, ?_⟩
  intro pads s frameKeys key
  refine ⟨?_, ?_, ?_⟩
  · simp [InputManagerD1.isKeyDown, hptr]
  · simp [InputManagerD1.isKeyPressed, hptr]
  · simp [InputManagerD1.isKeyReleased, hptr]

/-! ## Lemmas: D1 gamepad state and D2 hotplug -/

/-- `updateGamepadState` is a no-op when no controller is open. -/
theorem updateGamepadStateD1_none {src : GamepadSource} {s : InputManagerD1}
    (h : s.gameController = none) : updateGamepadStateD1 src s = s := by
  unfold updateGamepadStateD1
  rw [h]

/-- Any sequence of updates without an open controller leaves the manager
unchanged. -/
theorem foldl_updateGamepadStateD1_none (srcs : List GamepadSource) :
    ∀ s : InputManagerD1, s.gameController = none →
      srcs.foldl (fun s src => updateGamepadStateD1 src s) s = s := by
  induction srcs with
  | nil => intro s _; rfl
  | cons src rest ih =>
    intro s h
    rw [List.foldl_cons, updateGamepadStateD1_none h, ih s h]

/-- `GamepadInput::update` on a bound handle that reports not-attached:
the handle is released and nothing else happens in that update (the scan
ran before the attach check, so no replacement is bound). -/
theorem gamepadInput_update_detached {env : GamepadEnv} {g : GamepadInput}
    {c : Nat} (hc : g.controller = some c) (hatt : env.attached c = false) :
    GamepadInput.update env g =
      { g with previousButtonStates := g.currentButtonStates,
               controller := none, controllerWasConnected := false } := by
  obtain ⟨ctrl, wasConn, prev, cur, ax⟩ := g
  simp only at hc
  subst hc
  simp [GamepadInput.update, hatt]

/-- `GamepadInput::update` with no bound handle scans, binds the first
openable controller, and (when it is attached) refreshes state from it. -/
theorem gamepadInput_update_rebind {env : GamepadEnv} {g : GamepadInput}
    {c : Nat} (hg : g.controller = none)
    (hscan : GamepadInput.scanForController env = some c)
    (hatt : env.attached c = true) :
    GamepadInput.update env g =
      { controller := some c
        controllerWasConnected := true
        previousButtonStates := g.currentButtonStates
        currentButtonStates := fun i =>
          if i < sdlControllerButtonMax then env.buttons c i
          else g.currentButtonStates i
        axisValues := fun i =>
          if i < sdlControllerAxisMax then env.axes c i
          else g.axisValues i } := by
  obtain ⟨ctrl, wasConn, prev, cur, ax⟩ := g
  simp only at hg
  subst hg
  simp [GamepadInput.update, hscan, hatt]

/-- With an open handle and a valid axis index, `GamepadInput::getAxisValue`
is exactly the deadzone shaping (at `0.15`) of the `1/32768`-normalized raw
reading. -/
theorem getAxisValue_eq_shape {g : GamepadInput} {c : Nat} {axis : Nat}
    (hc : g.controller = some c) (ha : axis < sdlControllerAxisMax) :
    g.getAxisValue axis =
      shapeAxis gamepadInputDeadzone ((g.axisValues axis : ℚ) * (1 / 32768)) := by
  rw [GamepadInput.getAxisValue, if_neg]
  · rfl
  · rintro (h1 | h2)
    · rw [GamepadInput.isAvailable, hc] at h1
      simp at h1
    · omega

/-- C3 counterexample: with an axis bound at deadzone `1/4` and a stored
raw normalized value of `1/2`, the dispatch fires with payload `1/2` — the
raw value — whereas the shaped value would be `1/3` and `deltaTime` is
`1/60`; and with a stored value of `3/10` the dispatch fires although the
shaped magnitude `1/15` does not exceed the binding's deadzone. -/
theorem claim_C3_counterexample :
    dispatchAxis (fun _ => 1 / 2) [(GamepadAxis.LEFTX, 7, 1 / 4)] (1 / 60) =
      [(GamepadAxis.LEFTX, 7, 1 / 2)] ∧
    shapeAxis (1 / 4) (1 / 2) = 1 / 3 ∧
    ((1 : ℚ) / 2) ≠ 1 / 3 ∧
    ((1 : ℚ) / 2) ≠ 1 / 60 ∧
    dispatchAxis (fun _ => 3 / 10) [(GamepadAxis.LEFTX, 7, 1 / 4)] (1 / 60) =
      [(GamepadAxis.LEFTX, 7, 3 / 10)] ∧
    |shapeAxis (1 / 4) (3 / 10)| < 1 / 4 := by
  have habs2 : |(1 : ℚ) / 2| = 1 / 2 := abs_of_nonneg (by norm_num)
  have habs3 : |(3 : ℚ) / 10| = 3 / 10 := abs_of_nonneg (by norm_num)
  have hshape3 : shapeAxis (1 / 4) (3 / 10) = 1 / 15 := by
    rw [shapeAxis, habs3, if_neg (by norm_num), if_pos (by norm_num)]
    norm_num
  refine ⟨?_, ?_, by norm_num, by norm_num, ?_, ?_⟩
  · rw [dispatchAxis_singleton, if_pos (by rw [habs2]; norm_num)]
  · rw [shapeAxis, habs2, if_neg (by norm_num), if_pos (by norm_num)]
    norm_num
  · rw [dispatchAxis_singleton, if_pos (by rw [habs3]; norm_num)]
  · rw [hshape3, abs_of_nonneg (by norm_num : (0 : ℚ) ≤ 1 / 15)]
    norm_num

/-- C3 (amended): during `update(deltaTime)`, the axis dispatch invokes a
binding's callback exactly when the *raw* stored axis value's magnitude
exceeds that binding's deadzone, and passes that raw stored value as the
payload — not the shaped value and not the elapsed time. -/
theorem claim_C3 :
    (∀ (axisValue : GamepadAxis → ℚ) (cmds : List (GamepadAxis × Nat × ℚ))
        (dt : ℚ),
      dispatchAxis axisValue cmds dt =
        (cmds.filter (fun ad => |axisValue ad.1| > ad.2.2)).map
          (fun ad => (ad.1, ad.2.1, axisValue ad.1))) ∧
    (∀ (s : InputManagerD1) (a : GamepadAxis) (cb : Nat) (dz dt : ℚ),
      dispatchAxis s.getGamepadAxisValue [(a, cb, dz)] dt =
        if |s.getGamepadAxisValue a| > dz
        then [(a, cb, s.getGamepadAxisValue a)] else []) :=
  ⟨dispatchAxis_eq, fun s a cb dz dt =>
    dispatchAxis_singleton s.getGamepadAxisValue a cb dz dt⟩

/-- C4 counterexample: after a gamepad was connected (capturing button A
down and a non-zero axis) and then disconnected with no replacement, the
manager has no controller, yet `isGamepadButtonDown(A)` still returns
`true` and `getGamepadAxisValue(LEFTX)` still returns the stale non-zero
value. -/
theorem claim_C4_counterexample :
    c4Stale.gameController = none ∧
    c4Stale.isGamepadButtonDown GamepadButton.A = true ∧
    c4Stale.getGamepadAxisValue GamepadAxis.LEFTX = 16384 / 32767 ∧
    ((16384 : ℚ) / 32767) ≠ 0 :=
  ⟨rfl, rfl, rfl, by norm_num⟩

/-- C4 (amended): gamepad queries return neutral values when no gamepad
state was ever captured (the maps of a manager that never opened a device
stay empty through any number of updates), and in the capability-delegation
design whenever the handle is closed; but the binding-table design clears
nothing on disconnect (neither the removal handler nor a controller-less
update touches the captured maps), so after a previously connected device
detaches its last captured — possibly non-neutral — values remain
observable. -/
theorem claim_C4 :
    (∀ (srcs : List GamepadSource) (b : GamepadButton) (a : GamepadAxis),
      (srcs.foldl (fun s src => updateGamepadStateD1 src s)
          (InputManagerD1.init padsNone InputManagerD1.mk0)).isGamepadButtonDown b = false ∧
      (srcs.foldl (fun s src => updateGamepadStateD1 src s)
          (InputManagerD1.init padsNone InputManagerD1.mk0)).isGamepadButtonPressed b = false ∧
      (srcs.foldl (fun s src => updateGamepadStateD1 src s)
          (InputManagerD1.init padsNone InputManagerD1.mk0)).isGamepadButtonReleased b = false ∧
      (srcs.foldl (fun s src => updateGamepadStateD1 src s)
          (InputManagerD1.init padsNone InputManagerD1.mk0)).getGamepadAxisValue a = 0) ∧
    (∀ g : GamepadInput, g.controller = none →
      ∀ button axis : Nat,
        g.isButtonPressed button = false ∧
        g.isButtonJustPressed button = false ∧
        g.getAxisValue axis = 0) ∧
    (∀ (w : Int) (pads : HotplugEnv) (s : InputManagerD1),
      (processControllerRemoved w pads s).currentGamepadButtonState =
        s.currentGamepadButtonState ∧
      (processControllerRemoved w pads s).gamepadAxisValues =
        s.gamepadAxisValues) ∧
    (∀ (src : GamepadSource) (s : InputManagerD1),
      s.gameController = none → updateGamepadStateD1 src s = s) := by
  refine ⟨?_, ?_, ?_, fun src s h => updateGamepadStateD1_none h⟩
  · intro srcs b a
    rw [foldl_updateGamepadStateD1_none srcs _ rfl]
    exact ⟨rfl, rfl, rfl, rfl⟩
  · intro g h button axis
    refine ⟨?_, ?_, ?_⟩ <;>
      simp [GamepadInput.isButtonPressed, GamepadInput.isButtonJustPressed,
        GamepadInput.getAxisValue, GamepadInput.isAvailable, h]
  · intro w pads s
    unfold processControllerRemoved
    split
    · split <;> exact ⟨rfl, rfl⟩
    · exact ⟨rfl, rfl⟩

/-- Witness for C4's conditional parts at a concrete input. -/
theorem claim_C4_witness :
    GamepadInput.initial.isButtonPressed 0 = false ∧
    GamepadInput.initial.getAxisValue 0 = 0 := by
  have h := claim_C4.2.1 GamepadInput.initial rfl 0 0
  exact ⟨h.1, h.2.2⟩

/-- C6 counterexample: with the bound handle (index 0) reporting
not-attached while joystick 1 is an openable, attached replacement, one
`GamepadInput::update` releases the handle but binds nothing — the rescan
does not run within that same update (it runs at the start of the next
one, which does bind joystick 1). -/
theorem claim_C6_counterexample :
    (GamepadInput.update c6Env c6Gamepad).controller = none ∧
    GamepadInput.scanForController c6Env = some 1 ∧
    (GamepadInput.update c6Env (GamepadInput.update c6Env c6Gamepad)).controller =
      some 1 :=
  ⟨rfl, rfl, rfl⟩

/-- C6 (amended): when the bound handle reports not-attached during
`GamepadInput::update`, it is released within that update and every query
afterwards returns the neutral value (never a stale handle); the rescan for
a replacement runs at the start of the *next* update, after which queries
reflect the newly bound device without `initialize()` being called again.
(In the binding-table design, the removal-event handler does rescan
immediately within `processEvent`.) -/
theorem claim_C6 :
    (∀ (env : GamepadEnv) (g : GamepadInput) (c : Nat),
      g.controller = some c → env.attached c = false →
      (GamepadInput.update env g).controller = none ∧
      (GamepadInput.update env g).isAvailable = false ∧
      (∀ b, (GamepadInput.update env g).isButtonPressed b = false) ∧
      (∀ a, (GamepadInput.update env g).getAxisValue a = 0)) ∧
    (∀ (env2 : GamepadEnv) (g1 : GamepadInput) (c : Nat),
      g1.controller = none → GamepadInput.scanForController env2 = some c →
      env2.attached c = true →
      (GamepadInput.update env2 g1).controller = some c ∧
      (∀ b, b < sdlControllerButtonMax →
        (GamepadInput.update env2 g1).isButtonPressed b = env2.buttons c b) ∧
      (∀ a, a < sdlControllerAxisMax →
        (GamepadInput.update env2 g1).axisValues a = env2.axes c a)) ∧
    (∀ (s : InputManagerD1) (pads : HotplugEnv) (c j : Nat),
      s.gameController = some c → firstOpenableController pads = some j →
      (processControllerRemoved s.gameControllerIndex pads s).gameController =
        some j) := by
  refine ⟨?_, ?_, ?_⟩
  · intro env g c hc hatt
    rw [gamepadInput_update_detached hc hatt]
    refine ⟨rfl, rfl, fun b => ?_, fun a => ?_⟩
    · simp [GamepadInput.isButtonPressed, GamepadInput.isAvailable]
    · simp [GamepadInput.getAxisValue, GamepadInput.isAvailable]
  · intro env2 g1 c hg hscan hatt
    rw [gamepadInput_update_rebind hg hscan hatt]
    refine ⟨rfl, fun b hb => ?_, fun a ha => ?_⟩
    · simp [GamepadInput.isButtonPressed, GamepadInput.isAvailable,
        Nat.not_le.2 hb, if_pos hb]
    · simp [if_pos ha]
  · intro s pads c j hc hj
    unfold processControllerRemoved
    rw [if_pos ⟨by simp [hc], rfl⟩, hj]

/-- Witness for C6's conditional parts at a concrete input. -/
theorem claim_C6_witness :
    (GamepadInput.update c6Env c6Gamepad).isAvailable = false ∧
    (GamepadInput.update c6Env c6Gamepad).isButtonPressed 0 = false := by
  have h := claim_C6.1 c6Env c6Gamepad 0 rfl rfl
  exact ⟨h.2.1, h.2.2.1 0⟩

/-- C9: the two coexisting designs use different default axis deadzones —
`bindGamepadAxisCommand`'s default parameter is `0.25` while
`GamepadInput::getAxisValue` hard-codes `0.15` — the binding-table dispatch
compares the raw stored value against the binding's deadzone, and at raw
axis reading 16384 the two designs produce different axis outputs
(`16384/32767` raw versus the shaped `7/17`). -/
theorem claim_C9 :
    bindGamepadAxisDefaultDeadzone = 25 / 100 ∧
    gamepadInputDeadzone = 15 / 100 ∧
    bindGamepadAxisDefaultDeadzone ≠ gamepadInputDeadzone ∧
    (∀ (axisValue : GamepadAxis → ℚ) (a : GamepadAxis) (cb : Nat) (dt : ℚ),
      dispatchAxis axisValue [(a, cb, bindGamepadAxisDefaultDeadzone)] dt =
        if |axisValue a| > bindGamepadAxisDefaultDeadzone
        then [(a, cb, axisValue a)] else []) ∧
    (updateGamepadStateD1 srcA16384 c9Manager).getGamepadAxisValue
      GamepadAxis.LEFTX = 16384 / 32767 ∧
    c9Gamepad.getAxisValue 0 = 7 / 17 ∧
    ((16384 : ℚ) / 32767) ≠ 7 / 17 := by
  refine ⟨rfl, rfl, by norm_num [bindGamepadAxisDefaultDeadzone, gamepadInputDeadzone],
    fun axisValue a cb dt => dispatchAxis_singleton axisValue a cb _ dt,
    rfl, ?_, by norm_num⟩
  have hax : ((c9Gamepad.axisValues 0 : Int) : ℚ) * (1 / 32768) = 1 / 2 := by
    show ((16384 : Int) : ℚ) * (1 / 32768) = 1 / 2
    norm_num
  rw [getAxisValue_eq_shape (c := 0) rfl (by norm_num [sdlControllerAxisMax]),
    hax, shapeAxis, gamepadInputDeadzone,
    abs_of_nonneg (by norm_num : (0 : ℚ) ≤ 1 / 2),
    if_neg (by norm_num), if_pos (by norm_num)]
  norm_num

end SDLGame
